import Mathlib

/-!
Verification of the document-harvesting pipeline of the agent-bridge
repository: the registry scraper (src/scripts/scraper.py) and the batch
downloader (src/scripts/downloader.py). Python string and path
operations are modelled on `List Char`, with `String` wrappers at the
boundaries; network transports are explicit function parameters, and the
requests a run issues are returned as an explicit log so that claims of
the form "no probe is issued" are statable.
-/

namespace AgentBridge

/-! ## Python string primitives -/

/-- ASCII whitespace characters stripped by Python `str.strip()`
(the model is scoped to ASCII input; Python additionally strips some
Unicode whitespace). -/
def pyWhitespace : List Char := [' ', '\t', '\n', '\r', Char.ofNat 11, Char.ofNat 12]

/-- Strip the characters of `cs` from both ends of `l`, as Python
`str.strip(chars)` does. -/
def dropAround (cs : List Char) (l : List Char) : List Char :=
  ((l.dropWhile (cs.contains ·)).reverse.dropWhile (cs.contains ·)).reverse

/-- Python `str.strip()` with no argument (whitespace). -/
def pyStrip (s : String) : String := ⟨dropAround pyWhitespace s.data⟩

/-- Python `sub in s` (substring containment). -/
def strContainsSub (s pat : String) : Bool := decide (pat.data <:+: s.data)

/-- Python `s.startswith(pat)`. -/
def strStartsWith (s pat : String) : Bool := decide (pat.data <+: s.data)

/-- Python `s.endswith(pat)`. -/
def strEndsWith (s pat : String) : Bool := decide (pat.data <:+ s.data)

/-- Python `s.lower()` (ASCII scope; `Char.toLower` lowers only ASCII). -/
def strLower (s : String) : String := ⟨s.data.map Char.toLower⟩

/-! ## downloader.py: sanitize_filename -/

/-- The filesystem-reserved characters replaced by `sanitize_filename`
(the Python literal `<>:"/\\|?*`). -/
def badChars : List Char := ['<', '>', ':', '"', '/', '\\', '|', '?', '*']

/-- The characters stripped from both ends by `sanitize_filename`
(Python `s.strip('. ')`). -/
def dotSpace : List Char := ['.', ' ']

/-- The character replacement loop of `sanitize_filename`: each reserved
character becomes an underscore. -/
def replaceBad (l : List Char) : List Char :=
  l.map (fun c => if badChars.contains c then '_' else c)

/-- Core of `sanitize_filename` (downloader.py lines 9-20): replace the
reserved characters, strip leading and trailing dots and spaces, truncate
to `maxLen`, and fall back to "unnamed" when empty. -/
def sanitizeCore (l : List Char) (maxLen : Nat) : List Char :=
  let s1 := replaceBad l
  let s2 := dropAround dotSpace s1
  let s3 := if maxLen < s2.length then s2.take maxLen else s2
  if s3 = [] then "unnamed".data else s3

/-- Python `sanitize_filename(s, max_len)` from downloader.py. -/
def sanitize_filename (s : String) (maxLen : Nat := 200) : String :=
  ⟨sanitizeCore s.data maxLen⟩

/-! ### Helper lemmas about the string primitives -/

theorem head?_dropWhile_false {p : Char → Bool} :
    ∀ {l : List Char} {c : Char}, (l.dropWhile p).head? = some c → p c = false := by
  intro l
  induction l with
  | nil => intro c h; simp [List.dropWhile] at h
  | cons a t ih =>
    intro c h
    by_cases hp : p a
    · rw [List.dropWhile_cons_of_pos hp] at h; exact ih h
    · rw [List.dropWhile_cons_of_neg hp] at h
      simp only [List.head?_cons, Option.some.injEq] at h
      subst h; simpa using hp

theorem mem_dropAround {cs l : List Char} {c : Char} (h : c ∈ dropAround cs l) : c ∈ l := by
  unfold dropAround at h
  rw [List.mem_reverse] at h
  have h1 := (List.dropWhile_sublist _).subset h
  rw [List.mem_reverse] at h1
  exact (List.dropWhile_sublist _).subset h1

theorem getLast?_dropAround {cs l : List Char} {c : Char}
    (h : (dropAround cs l).getLast? = some c) : cs.contains c = false := by
  unfold dropAround at h
  rw [List.getLast?_reverse] at h
  exact head?_dropWhile_false h

theorem head?_dropAround {cs l : List Char} {c : Char}
    (h : (dropAround cs l).head? = some c) : cs.contains c = false := by
  unfold dropAround at h
  rw [List.head?_reverse] at h
  obtain ⟨pre, hpre⟩ :=
    List.dropWhile_suffix (l := (l.dropWhile (cs.contains ·)).reverse) (cs.contains ·)
  have hlast : (l.dropWhile (cs.contains ·)).reverse.getLast? = some c := by
    rw [← hpre, List.getLast?_append, h]; rfl
  rw [List.getLast?_reverse] at hlast
  exact head?_dropWhile_false hlast

theorem head?_of_isPre {l1 l2 : List Char} {c : Char}
    (h : l1 <+: l2) (hc : l1.head? = some c) : l2.head? = some c := by
  obtain ⟨t, rfl⟩ := h
  rw [List.head?_append, hc]; rfl

theorem mem_replaceBad {l : List Char} {c : Char} (h : c ∈ replaceBad l) :
    badChars.contains c = false := by
  unfold replaceBad at h
  obtain ⟨a, _, rfl⟩ := List.mem_map.mp h
  by_cases hb : badChars.contains a = true
  · rw [if_pos hb]; decide
  · rw [if_neg hb]; simpa using hb

theorem notDotSpace {c : Char} (h : dotSpace.contains c = false) : c ≠ '.' ∧ c ≠ ' ' := by
  constructor <;> rintro rfl <;> exact absurd h (by decide)

/-- Every character surviving the replace-then-strip steps of
`sanitize_filename` is outside the reserved set. -/
theorem mem_sanitizeStrip {l : List Char} {c : Char}
    (h : c ∈ dropAround dotSpace (replaceBad l)) : badChars.contains c = false :=
  mem_replaceBad (mem_dropAround h)

/-- Full behaviour of the core of `sanitize_filename`: the result has no
reserved character, is never empty, never starts with a dot or space, has
length at most `max maxLen 7`, and — whenever the stripped string already
fits in `maxLen`, i.e. no truncation happens — also never ends with a dot
or space and (when the stripped string is non-empty) fits in `maxLen`. -/
theorem sanitizeCore_spec (l : List Char) (m : Nat) :
    (∀ c ∈ sanitizeCore l m, badChars.contains c = false)
  ∧ sanitizeCore l m ≠ []
  ∧ (∀ c, (sanitizeCore l m).head? = some c → c ≠ '.' ∧ c ≠ ' ')
  ∧ (sanitizeCore l m).length ≤ max m 7
  ∧ (7 ≤ m → (sanitizeCore l m).length ≤ m)
  ∧ ((dropAround dotSpace (replaceBad l)).length ≤ m →
       (∀ c, (sanitizeCore l m).getLast? = some c → c ≠ '.' ∧ c ≠ ' ')
       ∧ (dropAround dotSpace (replaceBad l) ≠ [] → (sanitizeCore l m).length ≤ m)) := by
  have hcore : sanitizeCore l m =
      (if (if m < (dropAround dotSpace (replaceBad l)).length
            then (dropAround dotSpace (replaceBad l)).take m
            else dropAround dotSpace (replaceBad l)) = []
        then "unnamed".data
        else (if m < (dropAround dotSpace (replaceBad l)).length
            then (dropAround dotSpace (replaceBad l)).take m
            else dropAround dotSpace (replaceBad l))) := rfl
  by_cases htr : m < (dropAround dotSpace (replaceBad l)).length
  · rw [if_pos htr] at hcore
    by_cases hnil : (dropAround dotSpace (replaceBad l)).take m = []
    · rw [if_pos hnil] at hcore
      rw [hcore]
      refine ⟨by decide, by decide, ?_, by simp, ?_, ?_⟩
      · intro c hc
        have : c = 'u' := by
          have h1 : "unnamed".data.head? = some 'u' := by decide
          rw [h1] at hc; exact (Option.some.inj hc).symm
        subst this; decide
      · intro h7
        have : ("unnamed".data).length = 7 := by decide
        omega
      · intro hfit; omega
    · rw [if_neg hnil] at hcore
      rw [hcore]
      refine ⟨?_, hnil, ?_, ?_, ?_, ?_⟩
      · intro c hc
        exact mem_sanitizeStrip ((List.take_sublist m _).subset hc)
      · intro c hc
        exact notDotSpace (head?_dropAround (head?_of_isPre ⟨List.drop m _, List.take_append_drop m _⟩ hc))
      · have := List.length_take m (dropAround dotSpace (replaceBad l))
        omega
      · intro h7
        have := List.length_take m (dropAround dotSpace (replaceBad l))
        omega
      · intro hfit; omega
  · rw [if_neg htr] at hcore
    by_cases hnil : dropAround dotSpace (replaceBad l) = []
    · rw [if_pos hnil] at hcore
      rw [hcore]
      refine ⟨by decide, by decide, ?_, by simp, ?_, ?_⟩
      · intro c hc
        have : c = 'u' := by
          have h1 : "unnamed".data.head? = some 'u' := by decide
          rw [h1] at hc; exact (Option.some.inj hc).symm
        subst this; decide
      · intro h7
        have : ("unnamed".data).length = 7 := by decide
        omega
      · intro _
        constructor
        · intro c hc
          have : c = 'd' := by
            have h1 : "unnamed".data.getLast? = some 'd' := by decide
            rw [h1] at hc; exact (Option.some.inj hc).symm
          subst this; decide
        · intro hne; exact absurd hnil hne
    · rw [if_neg hnil] at hcore
      rw [hcore]
      refine ⟨?_, hnil, ?_, ?_, ?_, ?_⟩
      · intro c hc; exact mem_sanitizeStrip hc
      · intro c hc; exact notDotSpace (head?_dropAround hc)
      · omega
      · intro _; omega
      · intro _
        exact ⟨fun c hc => notDotSpace (getLast?_dropAround hc), fun _ => by omega⟩

/-- Claim C2 (counterexample): `sanitize_filename` does NOT guarantee the
claimed property for every input and maximum length. Truncation happens
after the dot/space strip, so `sanitize_filename "a.b" 2` returns "a.",
which ends in a dot; and with maximum length 3 the empty input falls back
to "unnamed", of length 7 > 3. -/
theorem sanitize_filename_c2_counterexample :
    (sanitize_filename "a.b" 2).data.getLast? = some '.' ∧
    sanitize_filename "" 3 = "unnamed" ∧ (sanitize_filename "" 3).length = 7 := by
  decide

/-- Claim C2 (amended): for every input string and maximum length, the
result of `sanitize_filename` contains none of the reserved characters,
is non-empty, has no leading dot or space, and has length at most
`max maxLen 7` (at most `maxLen` whenever `maxLen ≥ 7`); whenever the
stripped string already fits in `maxLen` (so no truncation occurs) the
result also has no trailing dot or space, and fits in `maxLen` when the
stripped string is non-empty. Truncation can expose a trailing dot or
space, and the "unnamed" fallback can exceed a maximum length below 7. -/
theorem sanitize_filename_c2_amended (s : String) (m : Nat) :
    (∀ c ∈ (sanitize_filename s m).data, badChars.contains c = false)
  ∧ sanitize_filename s m ≠ ""
  ∧ (∀ c, (sanitize_filename s m).data.head? = some c → c ≠ '.' ∧ c ≠ ' ')
  ∧ (sanitize_filename s m).length ≤ max m 7
  ∧ (7 ≤ m → (sanitize_filename s m).length ≤ m)
  ∧ ((dropAround dotSpace (replaceBad s.data)).length ≤ m →
       (∀ c, (sanitize_filename s m).data.getLast? = some c → c ≠ '.' ∧ c ≠ ' ')
       ∧ (dropAround dotSpace (replaceBad s.data) ≠ [] →
            (sanitize_filename s m).length ≤ m)) := by
  obtain ⟨h1, h2, h3, h4, h5, h6⟩ := sanitizeCore_spec s.data m
  refine ⟨h1, ?_, h3, h4, h5, h6⟩
  intro heq
  exact h2 (congrArg String.data heq)

/-- Witness for the amended C2 theorem at a concrete input. -/
theorem sanitize_filename_c2_witness :
    7 ≤ 8 ∧ (sanitize_filename "doc<1>" 8).length ≤ 8 :=
  ⟨by decide, (sanitize_filename_c2_amended "doc<1>" 8).2.2.2.2.1 (by decide)⟩

/-! ## urllib.parse modelling

The scripts use `urlparse(u).hostname`, `urlparse(u).path`,
`os.path.basename`, `os.path.splitext` and `urllib.parse.unquote`. The
model below is scoped to absolute http(s)-style URLs (a well-formed
scheme followed by `://`) and relative references without a scheme; the
IPv6 bracket syntax and non-ASCII percent-sequences (which Python decodes
as UTF-8) are outside its scope, and none of the claims exercise them. -/

/-- Scan for the `://` marker that introduces a network location,
requiring at least one scheme character before it and stopping at any
`/`, `?` or `#`. Returns the remainder after the marker. -/
def schemeRestAux : Bool → List Char → Option (List Char)
  | _, [] => none
  | seen, ':' :: '/' :: '/' :: rest => if seen then some rest else none
  | _, c :: rest =>
    if c = '/' ∨ c = '?' ∨ c = '#' then none else schemeRestAux true rest

/-- True while inside the network-location part of a URL. -/
def netChar (c : Char) : Bool := !(c == '/' || c == '?' || c == '#')

/-- Core of `urlparse(u).hostname or ""`: take the netloc, drop any
userinfo before the last `@`, drop any `:port`, and lowercase. A URL
without a netloc has hostname `None`, which the scraper coerces to the
empty string. -/
def hostCore (u : List Char) : List Char :=
  match schemeRestAux false u with
  | none => []
  | some r =>
    let netloc := r.takeWhile netChar
    let afterUser := (netloc.reverse.takeWhile (fun c => c != '@')).reverse
    (afterUser.takeWhile (fun c => c != ':')).map Char.toLower

/-- Python `urlparse(u).hostname or ""` as used in scraper.py. -/
def hostOf (u : String) : String := ⟨hostCore u.data⟩

/-- The path part of a URL before params splitting: after the netloc when
one is present, up to the query or fragment. -/
def rawPathCore (u : List Char) : List Char :=
  match schemeRestAux false u with
  | some r => (r.dropWhile netChar).takeWhile (fun c => c != '?' && c != '#')
  | none => u.takeWhile (fun c => c != '?' && c != '#')

/-- Python `urlparse` splits `;params` off the last path segment. -/
def dropParams (p : List Char) : List Char :=
  let seg := (p.reverse.takeWhile (fun c => c != '/')).reverse
  p.take (p.length - seg.length) ++ seg.takeWhile (fun c => c != ';')

def pathCore (u : List Char) : List Char := dropParams (rawPathCore u)

/-- Python `urlparse(u).path`. -/
def pathOf (u : String) : String := ⟨pathCore u.data⟩

/-- Python `os.path.basename`: the part after the last `/`. -/
def basenameCore (p : List Char) : List Char :=
  (p.reverse.takeWhile (fun c => c != '/')).reverse

def isHexDig (c : Char) : Bool :=
  c.isDigit || (decide ('a' ≤ c) && decide (c ≤ 'f')) || (decide ('A' ≤ c) && decide (c ≤ 'F'))

def hexVal (c : Char) : Nat :=
  if c.isDigit then c.toNat - 48
  else if decide ('a' ≤ c) && decide (c ≤ 'f') then c.toNat - 87
  else c.toNat - 55

/-- Python `urllib.parse.unquote` on ASCII data: each valid `%XX` pair
decodes to the character with that code, invalid sequences stay as-is. -/
def unquoteCore : List Char → List Char
  | '%' :: a :: b :: rest =>
    if isHexDig a && isHexDig b then Char.ofNat (16 * hexVal a + hexVal b) :: unquoteCore rest
    else '%' :: unquoteCore (a :: b :: rest)
  | c :: rest => c :: unquoteCore rest
  | [] => []

def unquote (s : String) : String := ⟨unquoteCore s.data⟩

/-- Index of the last occurrence of `c` (Python `str.rfind`), scanning
with an explicit offset. -/
def lastIdxAux (c : Char) : List Char → Nat → Option Nat
  | [], _ => none
  | a :: t, i =>
    match lastIdxAux c t (i + 1) with
    | some j => some j
    | none => if a = c then some i else none

def lastIdx (c : Char) (l : List Char) : Option Nat := lastIdxAux c l 0

/-- Python `os.path.splitext` (posix): split at the last dot after the
last slash, unless every character of the basename up to that dot is a
dot (so ".bashrc" has no extension). -/
def splitextCore (p : List Char) : List Char × List Char :=
  let sep : Int := match lastIdx '/' p with | some i => (i : Int) | none => -1
  let dot : Int := match lastIdx '.' p with | some i => (i : Int) | none => -1
  if sep < dot then
    let d := dot.toNat
    let f := (sep + 1).toNat
    if ((p.drop f).take (d - f)).all (· == '.') then (p, [])
    else (p.take d, p.drop d)
  else (p, [])

/-! ## downloader.py: get_filename_from_url -/

/-- The kind-to-extension mapping of `get_filename_from_url`, with the
generic binary default. -/
def extOfKind (k : String) : String :=
  if k = "pdf" then ".pdf"
  else if k = "html" then ".html"
  else if k = "doc" then ".doc"
  else if k = "image" then ".jpg"
  else ".bin"

/-- Python `get_filename_from_url(url, doc_ref, doc_name, file_kind)`
from downloader.py lines 22-46: when the percent-decoded basename of the
URL path contains a dot, only the stem is sanitized and the reference
prefix and extension are concatenated verbatim; otherwise the name is
synthesized from the sanitized reference and document name plus a
kind-derived extension. -/
def get_filename_from_url (url doc_ref doc_name file_kind : String) : String :=
  let path := pathOf url
  let url_filename : String := unquote ⟨basenameCore path.data⟩
  if url_filename ≠ "" ∧ url_filename.data.contains '.' then
    let stemExt := splitextCore url_filename.data
    let nm := sanitize_filename ⟨stemExt.1⟩ 150
    doc_ref ++ "_" ++ nm ++ ⟨stemExt.2⟩
  else
    let base := sanitize_filename (doc_ref ++ "_" ++ doc_name) 150
    base ++ extOfKind file_kind

/-- Claim C10: the full filename can contain filesystem-unsafe characters
or trailing dots. At "http://h/a%3Fb.p%3Fdf" the decoded basename is
"a?b.p?df": the stem "a?b" is sanitized to "a_b" but the extension
".p?df" is appended verbatim, as is the unsanitized reference, so the
result "REF_a_b.p?df" keeps a `?`; an unsanitized reference "RE|F"
likewise survives; and a basename ending in a dot yields a filename with
a trailing dot. -/
theorem get_filename_c10_reserved :
    get_filename_from_url "http://h/a%3Fb.p%3Fdf" "REF" "n" "pdf" = "REF_a_b.p?df"
  ∧ '?' ∈ (get_filename_from_url "http://h/a%3Fb.p%3Fdf" "REF" "n" "pdf").data
  ∧ get_filename_from_url "http://h/a.pdf" "RE|F" "n" "pdf" = "RE|F_a.pdf"
  ∧ '|' ∈ (get_filename_from_url "http://h/a.pdf" "RE|F" "n" "pdf").data
  ∧ get_filename_from_url "http://h/plan.v2." "REF" "n" "pdf" = "REF_plan.v2."
  ∧ (get_filename_from_url "http://h/plan.v2." "REF" "n" "pdf").data.getLast? = some '.' := by
  decide

/-! ## scraper.py: classify_url

The HTTP transport is an explicit parameter: `headResp` models
`requests.head(...)` and `rangeResp` the ranged `requests.get(...)`
fallback, each returning `none` when the request raises a transport
error (`requests.RequestException`) and otherwise the observed status,
raw Content-Type header, and final URL after redirects. The second
component of the result is the log of probes issued, so independence
from the transport is statable. The `mimetypes.guess_type` value
computed by the source is never used afterwards and is omitted. -/

structure HResp where
  status : Nat
  contentTypeRaw : String
  url : String
deriving DecidableEq

structure CTransport where
  headResp : String → Option HResp
  rangeResp : String → Option HResp

inductive Req where
  | headReq (u : String)
  | rangeReq (u : String)
deriving DecidableEq

inductive FileKind where
  | pdf
  | image
  | html
  | doc
  | landing
  | unknown
deriving DecidableEq

def FileKind.str : FileKind → String
  | .pdf => "pdf"
  | .image => "image"
  | .html => "html"
  | .doc => "doc"
  | .landing => "landing"
  | .unknown => "unknown"

structure CResult where
  final : String
  ctype : String
  status : Nat
  kind : FileKind
deriving DecidableEq

/-- The viewer/app host list of scraper.py line 52. -/
def viewer_hosts : List String :=
  ["arcgis.com", "maps.arcgis.com", "sharepoint.com", "google.com", "drive.google.com"]

/-- Python `headers.get("Content-Type","").split(";")[0].strip().lower()`. -/
def procCType (raw : String) : String :=
  strLower (pyStrip ⟨raw.data.takeWhile (fun c => c != ';')⟩)

/-- The content-type to file-kind mapping of scraper.py lines 69-73. -/
def file_kind_of (ctype ext : String) : FileKind :=
  if strContainsSub ctype "pdf" || strEndsWith ext ".pdf" then .pdf
  else if strStartsWith ctype "image/" then .image
  else if strContainsSub ctype "html" then .html
  else if strStartsWith ctype "application/" then .doc
  else .unknown

/-- Python `classify_url(u)` from scraper.py lines 46-74, with the probes
issued returned alongside the result. -/
def classify_url (t : CTransport) (u : String) : CResult × List Req :=
  if u = "" then (⟨"", "", 0, .unknown⟩, [])
  else if viewer_hosts.any (fun h => strEndsWith (hostOf u) h) then
    (⟨u, "", 0, .landing⟩, [])
  else
    let ext := strLower (pathOf u)
    match t.headResp u with
    | none => (⟨u, "", 0, .unknown⟩, [Req.headReq u])
    | some h =>
      if 400 ≤ h.status ∨ procCType h.contentTypeRaw = "" then
        match t.rangeResp u with
        | none => (⟨u, "", 0, .unknown⟩, [Req.headReq u, Req.rangeReq u])
        | some g =>
          (⟨g.url, procCType g.contentTypeRaw, g.status,
              file_kind_of (procCType g.contentTypeRaw) ext⟩,
            [Req.headReq u, Req.rangeReq u])
      else
        (⟨h.url, procCType h.contentTypeRaw, h.status,
            file_kind_of (procCType h.contentTypeRaw) ext⟩,
          [Req.headReq u])

/-- A host equal to a viewer host or a subdomain of one passes the
suffix test used by the source. -/
theorem viewerSuffix {host v : String} (hv : v ∈ viewer_hosts)
    (hcase : host = v ∨ strEndsWith host ("." ++ v) = true) :
    viewer_hosts.any (fun h => strEndsWith host h) = true := by
  refine List.any_eq_true.mpr ⟨v, hv, ?_⟩
  rcases hcase with h | h
  · unfold strEndsWith
    rw [h]
    exact decide_eq_true (List.suffix_refl _)
  · unfold strEndsWith at h ⊢
    have hsuf : ("." ++ v).data <:+ host.data := of_decide_eq_true h
    rw [String.data_append] at hsuf
    have : v.data <:+ ".".data ++ v.data := ⟨".".data, rfl⟩
    exact decide_eq_true (this.trans hsuf)

/-- Shared core of claims C3 and C4: a non-empty URL whose host passes
the viewer test classifies as landing with the original URL, no probe
issued, for every transport. -/
theorem classify_viewer_aux (t : CTransport) (u : String) (hu : u ≠ "")
    (hany : viewer_hosts.any (fun h => strEndsWith (hostOf u) h) = true) :
    classify_url t u = (⟨u, "", 0, FileKind.landing⟩, []) := by
  unfold classify_url
  rw [if_neg hu, if_pos hany]

/-- Claim C3: for every non-empty URL whose host is in the viewer-host
set (exactly or as a subdomain), `classify_url` returns kind landing with
the original URL preserved, for every transport, and the probe log is
empty — no network request is issued. -/
theorem classify_url_c3_viewer (t : CTransport) (u : String) (hu : u ≠ "")
    (hv : ∃ v ∈ viewer_hosts, hostOf u = v ∨ strEndsWith (hostOf u) ("." ++ v) = true) :
    classify_url t u = (⟨u, "", 0, FileKind.landing⟩, []) := by
  obtain ⟨v, hvm, hcase⟩ := hv
  exact classify_viewer_aux t u hu (viewerSuffix hvm hcase)

/-- A transport answering every probe, used to witness that the viewer
short-circuit ignores the transport. -/
def cT0 : CTransport :=
  ⟨fun _ => some ⟨200, "text/html", "probed"⟩, fun _ => some ⟨200, "text/html", "probed"⟩⟩

/-- Witness for claim C3 at a concrete drive.google.com URL. -/
theorem classify_url_c3_witness :
    classify_url cT0 "https://drive.google.com/file/d/abc" =
      (⟨"https://drive.google.com/file/d/abc", "", 0, FileKind.landing⟩, []) :=
  classify_url_c3_viewer cT0 "https://drive.google.com/file/d/abc" (by decide)
    ⟨"drive.google.com", by decide, Or.inl (by decide)⟩

/-- Claim C5: the file kind computed from the resolved content type and
URL path is pdf when the type mentions pdf or the lowercased path ends in
".pdf"; otherwise image when the type starts with "image/"; otherwise
html when the type contains "html"; otherwise doc when the type starts
with "application/"; otherwise unknown. -/
theorem file_kind_of_c5 (ctype ext : String) :
    (file_kind_of ctype ext = .pdf ↔
      (strContainsSub ctype "pdf" = true ∨ strEndsWith ext ".pdf" = true))
  ∧ (file_kind_of ctype ext = .image ↔
      (¬(strContainsSub ctype "pdf" = true ∨ strEndsWith ext ".pdf" = true)
        ∧ strStartsWith ctype "image/" = true))
  ∧ (file_kind_of ctype ext = .html ↔
      (¬(strContainsSub ctype "pdf" = true ∨ strEndsWith ext ".pdf" = true)
        ∧ strStartsWith ctype "image/" = false
        ∧ strContainsSub ctype "html" = true))
  ∧ (file_kind_of ctype ext = .doc ↔
      (¬(strContainsSub ctype "pdf" = true ∨ strEndsWith ext ".pdf" = true)
        ∧ strStartsWith ctype "image/" = false
        ∧ strContainsSub ctype "html" = false
        ∧ strStartsWith ctype "application/" = true))
  ∧ (file_kind_of ctype ext = .unknown ↔
      (¬(strContainsSub ctype "pdf" = true ∨ strEndsWith ext ".pdf" = true)
        ∧ strStartsWith ctype "image/" = false
        ∧ strContainsSub ctype "html" = false
        ∧ strStartsWith ctype "application/" = false)) := by
  cases h1 : strContainsSub ctype "pdf" <;>
    cases h2 : strEndsWith ext ".pdf" <;>
      cases h3 : strStartsWith ctype "image/" <;>
        cases h4 : strContainsSub ctype "html" <;>
          cases h5 : strStartsWith ctype "application/" <;>
            simp [file_kind_of, h1, h2, h3, h4, h5]

/-- Witness for claim C5 at concrete content types. -/
theorem file_kind_of_c5_witness :
    file_kind_of "application/pdf" "/x" = .pdf ∧ file_kind_of "text/html" "/a" = .html :=
  ⟨(file_kind_of_c5 "application/pdf" "/x").1.mpr (Or.inl (by decide)),
   (file_kind_of_c5 "text/html" "/a").2.2.1.mpr ⟨by decide, by decide, by decide⟩⟩

/-! ## scraper.py: the crawl loop

Registry entries carry the raw fields read from the registry JSON.
Organization resolution (`resolve_org`) is modelled as a pure function
parameter: the source memoizes lookups in `org_cache` for the run and
propagates lookup errors, so over a completed run it acts as a mapping
from the stripped organisation-entity id to an organization. -/

structure Entry where
  reference : String
  name : String
  organisation_entity : String
  document_url : String
  documentation_url : String
  document_types : String
  entry_date : String
  local_plan : String
deriving DecidableEq

structure Org where
  lpa_curie : String
  lpa_name : String
deriving DecidableEq

/-- The typo-correction table SPLIT_FIX of scraper.py (its second entry
maps a key containing the split delimiter to itself and can never match
a split part; it is kept for fidelity). -/
def splitFixTable (p : String) : String :=
  if p = "sustainability-apprasial" then "sustainability-appraisal"
  else if p = "local-plan;site-allocations" then "local-plan;site-allocations"
  else p

/-- Python `fix_types(s)` from scraper.py: split on ";", strip parts,
drop empties, apply the typo table, and return the sorted set. -/
def fix_types (s : String) : List String :=
  if s = "" then []
  else
    let parts := ((s.splitOn ";").map pyStrip).filter (fun p => p ≠ "")
    let fixed := parts.map splitFixTable
    (fixed.eraseDups).mergeSort (fun a b => decide (a ≤ b))

/-- The dedup key of scraper.py line 85: organization short code,
local-plan identifier, declared document URL (unstripped, as in the
source). -/
abbrev CKey := String × String × String

def entryKey (resolver : String → Org) (e : Entry) : CKey :=
  ((resolver (pyStrip e.organisation_entity)).lpa_curie, e.local_plan, e.document_url)

structure CatalogRow where
  lpa_curie : String
  lpa_name : String
  doc_reference : String
  doc_name : String
  doc_types : String
  file_kind : String
  final_url : String
  landing_url : String
  status : Nat
  content_type : String
  entry_date : String
  local_plan : String
deriving DecidableEq

/-- The row built for a non-duplicate entry by scraper.py lines 90-114,
including the landing demotion of lines 97-99. -/
def buildRow (resolver : String → Org) (t : CTransport) (e : Entry) : CatalogRow :=
  let org := resolver (pyStrip e.organisation_entity)
  let doc_types := fix_types e.document_types
  let file_url := pyStrip e.document_url
  let landing_url := pyStrip e.documentation_url
  let c := (classify_url t file_url).1
  let final_url :=
    if (c.kind = .landing ∨ c.kind = .html ∨ c.kind = .unknown) ∧ landing_url ≠ "" then ""
    else c.final
  { lpa_curie := org.lpa_curie, lpa_name := org.lpa_name,
    doc_reference := e.reference, doc_name := e.name,
    doc_types := String.intercalate ";" doc_types,
    file_kind := c.kind.str, final_url := final_url, landing_url := landing_url,
    status := c.status, content_type := c.ctype,
    entry_date := e.entry_date, local_plan := e.local_plan }

/-- The crawl loop of scraper.py lines 76-114 over a given finite entry
sequence: the `seen` set accumulates dedup keys, duplicate keys are
dropped, and each kept entry is classified once. The second component
logs the URL passed to `classify_url` for each invocation. -/
def crawlAux (resolver : String → Org) (t : CTransport) :
    List CKey → List Entry → List CatalogRow × List String
  | _, [] => ([], [])
  | seen, e :: rest =>
    if entryKey resolver e ∈ seen then crawlAux resolver t seen rest
    else
      let r := crawlAux resolver t (entryKey resolver e :: seen) rest
      (buildRow resolver t e :: r.1, pyStrip e.document_url :: r.2)

def crawl (resolver : String → Org) (t : CTransport) (entries : List Entry) :
    List CatalogRow × List String :=
  crawlAux resolver t [] entries

/-- Specification-level first-occurrence filter: keep each entry whose
dedup key has not been kept before. -/
def firstOccAux (resolver : String → Org) : List CKey → List Entry → List Entry
  | _, [] => []
  | seen, e :: rest =>
    if entryKey resolver e ∈ seen then firstOccAux resolver seen rest
    else e :: firstOccAux resolver (entryKey resolver e :: seen) rest

def firstOccurrences (resolver : String → Org) (entries : List Entry) : List Entry :=
  firstOccAux resolver [] entries

theorem crawlAux_eq (resolver : String → Org) (t : CTransport) :
    ∀ (es : List Entry) (seen : List CKey),
      crawlAux resolver t seen es =
        ((firstOccAux resolver seen es).map (buildRow resolver t),
          (firstOccAux resolver seen es).map (fun e => pyStrip e.document_url)) := by
  intro es
  induction es with
  | nil => intro seen; rfl
  | cons e rest ih =>
    intro seen
    by_cases hk : entryKey resolver e ∈ seen
    · simp only [crawlAux, firstOccAux, if_pos hk]
      exact ih seen
    · simp only [crawlAux, firstOccAux, if_neg hk, ih]
      rfl

theorem firstOccAux_first (resolver : String → Org) :
    ∀ (es : List Entry) (seen : List CKey) (e : Entry),
      e ∈ firstOccAux resolver seen es →
        entryKey resolver e ∉ seen ∧
        es.find? (fun x => entryKey resolver x == entryKey resolver e) = some e := by
  intro es
  induction es with
  | nil => intro seen e h; simp [firstOccAux] at h
  | cons a rest ih =>
    intro seen e h
    by_cases hk : entryKey resolver a ∈ seen
    · rw [firstOccAux, if_pos hk] at h
      obtain ⟨hns, hfind⟩ := ih seen e h
      refine ⟨hns, ?_⟩
      rw [List.find?_cons_of_neg, hfind]
      intro hbeq
      exact hns (beq_iff_eq.mp hbeq ▸ hk)
    · rw [firstOccAux, if_neg hk] at h
      rcases List.mem_cons.mp h with rfl | htail
      · exact ⟨hk, List.find?_cons_of_pos _ (beq_self_eq_true _)⟩
      · obtain ⟨hns, hfind⟩ := ih (entryKey resolver a :: seen) e htail
        have hne : entryKey resolver e ≠ entryKey resolver a := by
          intro hh; exact hns (List.mem_cons.mpr (Or.inl hh))
        refine ⟨fun hh => hns (List.mem_cons.mpr (Or.inr hh)), ?_⟩
        rw [List.find?_cons_of_neg, hfind]
        intro hbeq
        exact hne (beq_iff_eq.mp hbeq).symm

theorem firstOccAux_nodup (resolver : String → Org) :
    ∀ (es : List Entry) (seen : List CKey),
      ((firstOccAux resolver seen es).map (entryKey resolver)).Nodup := by
  intro es
  induction es with
  | nil => intro seen; simp [firstOccAux]
  | cons a rest ih =>
    intro seen
    by_cases hk : entryKey resolver a ∈ seen
    · rw [firstOccAux, if_pos hk]; exact ih seen
    · rw [firstOccAux, if_neg hk]
      rw [List.map_cons, List.nodup_cons]
      refine ⟨?_, ih _⟩
      intro hmem
      obtain ⟨x, hx, hkey⟩ := List.mem_map.mp hmem
      have := (firstOccAux_first resolver rest (entryKey resolver a :: seen) x hx).1
      exact this (hkey ▸ List.mem_cons_self _ _)

/-- Claim C1: the crawl emits exactly the first-occurrence entries, in
crawl order — the rows are the image of the first-occurrence subsequence
under the row builder, the kept dedup keys are pairwise distinct (so two
entries with the same key yield exactly one row), each kept entry is the
first entry with its key in crawl order (`find?` returns the first
match), and the classification log has exactly one invocation per kept
entry — duplicates are dropped before classification. -/
theorem crawl_c1_dedup (resolver : String → Org) (t : CTransport) (entries : List Entry) :
    (crawl resolver t entries).1 =
        (firstOccurrences resolver entries).map (buildRow resolver t)
  ∧ ((firstOccurrences resolver entries).map (entryKey resolver)).Nodup
  ∧ (∀ e ∈ firstOccurrences resolver entries,
       entries.find? (fun x => entryKey resolver x == entryKey resolver e) = some e)
  ∧ (crawl resolver t entries).2 =
        (firstOccurrences resolver entries).map (fun e => pyStrip e.document_url) := by
  refine ⟨?_, firstOccAux_nodup resolver entries [], ?_, ?_⟩
  · rw [crawl, crawlAux_eq resolver t entries []]; rfl
  · intro e he
    exact (firstOccAux_first resolver entries [] e he).2
  · rw [crawl, crawlAux_eq resolver t entries []]; rfl

/-- Concrete resolver used by the crawl witnesses. -/
def res0 : String → Org := fun o => ⟨"org:" ++ o, "Org " ++ o⟩

def entryA : Entry := ⟨"ref-1", "Plan A", "42", "http://docs.example/a.pdf",
  "http://lpa.example/plans", "", "2024-01-01", "plan-1"⟩

def entryB : Entry := ⟨"ref-2", "Plan A dup", "42", "http://docs.example/a.pdf",
  "", "", "2024-01-02", "plan-1"⟩

def entryC : Entry := ⟨"ref-3", "Drive doc", "42", "https://drive.google.com/file/d/abc",
  "http://lpa.example/plans", "", "2024-01-03", "plan-2"⟩

/-- Witness for claim C1: with two identical-key entries and one distinct
entry, the kept entry for the repeated key is the first one. -/
theorem crawl_c1_witness :
    [entryA, entryB, entryC].find?
        (fun x => entryKey res0 x == entryKey res0 entryA) = some entryA :=
  (crawl_c1_dedup res0 cT0 [entryA, entryB, entryC]).2.2.1 entryA (by decide)

/-- Claim C4: for every entry kept by dedup (a non-duplicate entry) whose
landing URL is declared, its row is among the crawl output; if the
classified kind is landing, html or unknown, the row final URL is
cleared; and in particular when the declared document URL has host
drive.google.com, the row has kind "landing" and empty final URL. -/
theorem crawl_c4_demotion (resolver : String → Org) (t : CTransport) (entries : List Entry)
    (e : Entry) (he : e ∈ firstOccurrences resolver entries)
    (hland : pyStrip e.documentation_url ≠ "") :
    buildRow resolver t e ∈ (crawl resolver t entries).1
  ∧ (((classify_url t (pyStrip e.document_url)).1.kind = FileKind.landing ∨
        (classify_url t (pyStrip e.document_url)).1.kind = FileKind.html ∨
        (classify_url t (pyStrip e.document_url)).1.kind = FileKind.unknown) →
      (buildRow resolver t e).final_url = "")
  ∧ (hostOf (pyStrip e.document_url) = "drive.google.com" →
      (buildRow resolver t e).file_kind = "landing" ∧
        (buildRow resolver t e).final_url = "") := by
  have hfinal : (buildRow resolver t e).final_url =
      (if ((classify_url t (pyStrip e.document_url)).1.kind = FileKind.landing ∨
            (classify_url t (pyStrip e.document_url)).1.kind = FileKind.html ∨
            (classify_url t (pyStrip e.document_url)).1.kind = FileKind.unknown) ∧
          pyStrip e.documentation_url ≠ "" then ""
        else (classify_url t (pyStrip e.document_url)).1.final) := rfl
  have hkindeq : (buildRow resolver t e).file_kind =
      (classify_url t (pyStrip e.document_url)).1.kind.str := rfl
  refine ⟨?_, ?_, ?_⟩
  · rw [crawl, crawlAux_eq resolver t entries []]
    exact List.mem_map_of_mem _ he
  · intro hkind
    rw [hfinal, if_pos ⟨hkind, hland⟩]
  · intro hhost
    have hu : pyStrip e.document_url ≠ "" := by
      intro hnil
      rw [hnil] at hhost
      exact absurd hhost (by decide)
    have hclass := classify_viewer_aux t (pyStrip e.document_url) hu
      (viewerSuffix (v := "drive.google.com") (by decide) (Or.inl hhost))
    have hkind : (classify_url t (pyStrip e.document_url)).1.kind = FileKind.landing := by
      rw [hclass]
    constructor
    · rw [hkindeq, hkind]; rfl
    · rw [hfinal, if_pos ⟨Or.inl hkind, hland⟩]

/-- Witness for claim C4 at a concrete drive.google.com entry. -/
theorem crawl_c4_witness :
    (buildRow res0 cT0 entryC).file_kind = "landing" ∧
      (buildRow res0 cT0 entryC).final_url = "" :=
  (crawl_c4_demotion res0 cT0 [entryA, entryC] entryC (by decide) (by decide)).2.2
    (by decide)

/-! ## downloader.py: download_file and download_documents

The download transport models `requests.get(url, stream=True)`:
`raised` is a `requests.RequestException` thrown by the call itself,
and `resp` carries the status, the chunks successfully yielded by
`iter_content` before an optional mid-stream exception, and that
exception when one occurs. The filesystem is an association list from
paths to byte contents; directories are not modelled. Reading the
catalog CSV is out of scope: `download_documents` takes the parsed rows
(each with all the catalog columns present, so the `row.get` defaults of
the source are never taken) and the initial filesystem. -/

structure PyErr where
  name : String
  msg : String
deriving DecidableEq

inductive DlOutcome where
  | raised (e : PyErr)
  | resp (status : Nat) (chunks : List (List Nat)) (streamErr : Option PyErr)
deriving DecidableEq

abbrev DTransport := String → DlOutcome

abbrev FS := List (String × List Nat)

def fsExists (fs : FS) (p : String) : Bool := fs.any (fun e => e.1 == p)

def fsSet (fs : FS) (p : String) (v : List Nat) : FS :=
  (p, v) :: fs.filter (fun e => !(e.1 == p))

def fsDel (fs : FS) (p : String) : FS := fs.filter (fun e => !(e.1 == p))

/-- Python `str(e)[:100]`. -/
def takeStr (n : Nat) (s : String) : String := ⟨s.data.take n⟩

/-- The error message built at downloader.py line 68:
`type(e).__name__ + ": " + str(e)[:100]`. -/
def fmtErr (e : PyErr) : String := e.name ++ ": " ++ takeStr 100 e.msg

/-- The `requests.exceptions.HTTPError` raised by `raise_for_status` on a
status of 400 or more; its message carries the status code. -/
def httpErr (status : Nat) : PyErr := ⟨"HTTPError", toString status⟩

/-- Python `download_file(url, filepath)` from downloader.py lines 48-73:
empty URL fails immediately without touching the filesystem; a raised
request or a 400+ status deletes whatever is at the destination and
fails; otherwise the yielded chunks are written, and a mid-stream
exception deletes the partial file and fails. -/
def download_file (t : DTransport) (fs : FS) (url : String) (fp : String) :
    FS × Bool × String :=
  if url = "" then (fs, false, "No URL provided")
  else
    match t url with
    | .raised e => (fsDel fs fp, false, fmtErr e)
    | .resp status chunks streamErr =>
      if 400 ≤ status then (fsDel fs fp, false, fmtErr (httpErr status))
      else
        match streamErr with
        | some e => (fsDel (fsSet fs fp chunks.flatten) fp, false, fmtErr e)
        | none => (fsSet fs fp chunks.flatten, true, "")

structure DStats where
  total : Nat
  skipped_no_url : Nat
  skipped_exists : Nat
  skipped_kind : Nat
  downloaded : Nat
  failed : Nat
deriving DecidableEq

structure FailRec where
  doc_reference : String
  doc_name : String
  url : String
  error : String
  lpa_curie : String
  lpa_name : String
  local_plan : String
deriving DecidableEq

structure DRow where
  lpa_curie : String
  lpa_name : String
  doc_reference : String
  doc_name : String
  doc_types : String
  file_kind : String
  final_url : String
  landing_url : String
  status : String
  content_type : String
  entry_date : String
  local_plan : String
deriving DecidableEq

structure Opts where
  max_downloads : Option Nat
  skip_existing : Bool
  file_kinds : Option (List String)
deriving DecidableEq

/-- Python truthiness of the `max_downloads` argument: `None` and `0`
are both falsy in `if max_downloads and ...`. -/
def natTruthy : Option Nat → Bool
  | none => false
  | some n => n != 0

/-- Python truthiness of the `file_kinds` argument: `None` and the empty
list are falsy in `if file_kinds and ...`. -/
def listTruthy : Option (List String) → Bool
  | none => false
  | some l => !l.isEmpty

/-- The URL resolution of downloader.py lines 112-115: the stripped
final URL, or the stripped landing URL when the former strips to
empty. -/
def pick_url (r : DRow) : String :=
  let u := pyStrip r.final_url
  if u = "" then pyStrip r.landing_url else u

/-- The per-plan destination directory of downloader.py lines 131-137. -/
def plan_dir (r : DRow) : String :=
  if r.local_plan ≠ "" then "downloads/" ++ sanitize_filename r.local_plan 200
  else "downloads/uncategorized"

/-- The destination path of a row. -/
def rowPath (r : DRow) : String :=
  plan_dir r ++ "/" ++ get_filename_from_url (pick_url r) r.doc_reference r.doc_name r.file_kind

structure DState where
  stats : DStats
  failures : List FailRec
  fs : FS
  calls : List String
deriving DecidableEq

/-- One iteration of the download loop (downloader.py lines 108-172):
count the row, resolve its URL, apply the skip rules, otherwise download
and account the outcome; the second component is the `break` decision
`max_downloads and stats["downloaded"] >= max_downloads`. The `calls`
log records each URL handed to the transport. -/
def processRow (o : Opts) (t : DTransport) (s : DState) (r : DRow) : DState × Bool :=
  let stats0 := { s.stats with total := s.stats.total + 1 }
  let url := pick_url r
  if url = "" then
    ({ s with stats := { stats0 with skipped_no_url := stats0.skipped_no_url + 1 } }, false)
  else if listTruthy o.file_kinds ∧ r.file_kind ∉ o.file_kinds.getD [] then
    ({ s with stats := { stats0 with skipped_kind := stats0.skipped_kind + 1 } }, false)
  else if o.skip_existing ∧ fsExists s.fs (rowPath r) = true then
    ({ s with stats := { stats0 with skipped_exists := stats0.skipped_exists + 1 } }, false)
  else
    let res := download_file t s.fs url (rowPath r)
    let calls := s.calls ++ [url]
    if res.2.1 then
      let stats1 := { stats0 with downloaded := stats0.downloaded + 1 }
      (⟨stats1, s.failures, res.1, calls⟩,
        natTruthy o.max_downloads &&
          decide (o.max_downloads.getD 0 ≤ stats1.downloaded))
    else
      let stats1 := { stats0 with failed := stats0.failed + 1 }
      (⟨stats1,
        s.failures ++ [⟨r.doc_reference, r.doc_name, url, res.2.2,
          r.lpa_curie, r.lpa_name, r.local_plan⟩],
        res.1, calls⟩,
        natTruthy o.max_downloads &&
          decide (o.max_downloads.getD 0 ≤ stats1.downloaded))

def goDl (o : Opts) (t : DTransport) : List DRow → DState → DState
  | [], s => s
  | r :: rs, s =>
    let pr := processRow o t s r
    if pr.2 then pr.1 else goDl o t rs pr.1

def initState (fs0 : FS) : DState := ⟨⟨0, 0, 0, 0, 0, 0⟩, [], fs0, []⟩

/-- Python `download_documents` from downloader.py lines 75-177, over the
parsed catalog rows and the initial filesystem. -/
def download_documents (o : Opts) (t : DTransport) (rows : List DRow) (fs0 : FS) : DState :=
  goDl o t rows (initState fs0)

/-! ### Accounting invariant (claim C9) -/

def statSum (st : DStats) : Nat :=
  st.skipped_no_url + st.skipped_kind + st.skipped_exists + st.downloaded + st.failed

theorem processRow_inv (o : Opts) (t : DTransport) (s : DState) (r : DRow)
    (h1 : s.stats.total = statSum s.stats)
    (h2 : s.stats.failed = s.failures.length) :
    (processRow o t s r).1.stats.total = statSum (processRow o t s r).1.stats ∧
    (processRow o t s r).1.stats.failed = (processRow o t s r).1.failures.length := by
  simp only [statSum] at h1
  simp only [processRow]
  split_ifs <;> constructor <;> simp [statSum, List.length_append] <;> omega

theorem goDl_inv (o : Opts) (t : DTransport) :
    ∀ (rows : List DRow) (s : DState),
      s.stats.total = statSum s.stats → s.stats.failed = s.failures.length →
      (goDl o t rows s).stats.total = statSum (goDl o t rows s).stats ∧
      (goDl o t rows s).stats.failed = (goDl o t rows s).failures.length := by
  intro rows
  induction rows with
  | nil => intro s h1 h2; exact ⟨h1, h2⟩
  | cons r rs ih =>
    intro s h1 h2
    obtain ⟨g1, g2⟩ := processRow_inv o t s r h1 h2
    by_cases hbrk : (processRow o t s r).2 = true
    · simp only [goDl, hbrk, if_true]; exact ⟨g1, g2⟩
    · have hb : (processRow o t s r).2 = false := eq_false_of_ne_true hbrk
      simp only [goDl, hb, Bool.false_eq_true, if_false]
      exact ih (processRow o t s r).1 g1 g2

/-- Claim C9: every visited row lands in exactly one outcome bucket —
after any run the total row count equals the sum of the five outcome
counters, and the failed counter equals the number of failure-log
records collected. -/
theorem download_documents_c9 (o : Opts) (t : DTransport) (rows : List DRow) (fs0 : FS) :
    (download_documents o t rows fs0).stats.total =
        (download_documents o t rows fs0).stats.skipped_no_url +
        (download_documents o t rows fs0).stats.skipped_kind +
        (download_documents o t rows fs0).stats.skipped_exists +
        (download_documents o t rows fs0).stats.downloaded +
        (download_documents o t rows fs0).stats.failed
  ∧ (download_documents o t rows fs0).stats.failed =
      (download_documents o t rows fs0).failures.length := by
  have h := goDl_inv o t rows (initState fs0) rfl rfl
  exact ⟨h.1, h.2⟩

/-! ### Failure handling (claim C6) -/

/-- A transport error during the download of `url`: the request itself
raises, or the body stream raises midway (with a non-error status, the
case the claim is about). -/
def dlFails (t : DTransport) (url : String) : Prop :=
  (∃ e, t url = .raised e) ∨
  (∃ st ch e, t url = .resp st ch (some e) ∧ st < 400)

theorem fsExists_del (fs : FS) (p : String) : fsExists (fsDel fs p) p = false := by
  induction fs with
  | nil => rfl
  | cons a tl ih =>
    by_cases h : a.1 == p
    · rw [fsDel, List.filter_cons, if_neg (by simp [h])]
      exact ih
    · have hb : (a.1 == p) = false := eq_false_of_ne_true h
      rw [fsDel, List.filter_cons, if_pos (by simp [hb])]
      rw [fsExists, List.any_cons]
      simp only [hb, Bool.false_or]
      exact ih

theorem fmtErr_ne (e : PyErr) : fmtErr e ≠ "" := by
  intro h
  have h2 := congrArg String.data h
  simp [fmtErr, String.data_append] at h2

theorem download_file_fails (t : DTransport) (fs : FS) (url fp : String)
    (hu : url ≠ "") (hf : dlFails t url) :
    fsExists (download_file t fs url fp).1 fp = false ∧
    (download_file t fs url fp).2.1 = false ∧
    (download_file t fs url fp).2.2 ≠ "" := by
  rcases hf with ⟨e, he⟩ | ⟨st, ch, e, he, hst⟩
  · have hd : download_file t fs url fp = (fsDel fs fp, false, fmtErr e) := by
      simp only [download_file, if_neg hu, he]
    rw [hd]
    exact ⟨fsExists_del _ _, rfl, fmtErr_ne e⟩
  · have hd : download_file t fs url fp =
        (fsDel (fsSet fs fp ch.flatten) fp, false, fmtErr e) := by
      simp only [download_file, if_neg hu, he]
      rw [if_neg (by omega : ¬ (400 : Nat) ≤ st)]
    rw [hd]
    exact ⟨fsExists_del _ _, rfl, fmtErr_ne e⟩

/-- Claim C6: a row that reaches the download step and whose transport
raises deletes any partial file (nothing exists at the destination path
afterwards), is counted failed, and appends exactly one failure record
carrying the row's doc_reference and a non-empty error field. -/
theorem download_c6_failure (o : Opts) (t : DTransport) (s : DState) (r : DRow)
    (hurl : pick_url r ≠ "")
    (hkind : ¬(listTruthy o.file_kinds = true ∧ r.file_kind ∉ o.file_kinds.getD []))
    (hex : ¬(o.skip_existing = true ∧ fsExists s.fs (rowPath r) = true))
    (hfail : dlFails t (pick_url r)) :
    fsExists (processRow o t s r).1.fs (rowPath r) = false
  ∧ (processRow o t s r).1.stats.failed = s.stats.failed + 1
  ∧ ∃ rec, (processRow o t s r).1.failures = s.failures ++ [rec]
      ∧ rec.doc_reference = r.doc_reference ∧ rec.error ≠ "" := by
  obtain ⟨hfs, hsucc, herr⟩ := download_file_fails t s.fs (pick_url r) (rowPath r) hurl hfail
  simp only [processRow, if_neg hurl, if_neg hkind, if_neg hex, hsucc,
    Bool.false_eq_true, if_false]
  exact ⟨hfs, by trivial,
    ⟨r.doc_reference, r.doc_name, pick_url r, (download_file t s.fs (pick_url r) (rowPath r)).2.2,
      r.lpa_curie, r.lpa_name, r.local_plan⟩, by trivial, by trivial, herr⟩

def oAll : Opts := ⟨none, true, none⟩

def tTimeout : DTransport := fun _ => .raised ⟨"ReadTimeout", "read timed out"⟩

def tOk : DTransport := fun _ => .resp 200 [[1, 2]] none

def rowGood : DRow := ⟨"lpa:x", "X", "ref-9", "Doc", "", "pdf",
  "http://docs.example/a.pdf", "", "200", "application/pdf", "2024", "plan-1"⟩

/-- Witness for claim C6: a timing-out transport on a downloadable row.
-/
theorem download_c6_witness :
    fsExists (processRow oAll tTimeout (initState []) rowGood).1.fs (rowPath rowGood) = false
  ∧ (processRow oAll tTimeout (initState []) rowGood).1.stats.failed =
      (initState []).stats.failed + 1
  ∧ ∃ rec, (processRow oAll tTimeout (initState []) rowGood).1.failures =
        (initState []).failures ++ [rec]
      ∧ rec.doc_reference = rowGood.doc_reference ∧ rec.error ≠ "" :=
  download_c6_failure oAll tTimeout (initState []) rowGood (by decide) (by decide) (by decide)
    (Or.inl ⟨⟨"ReadTimeout", "read timed out"⟩, rfl⟩)

/-! ### URL resolution (claim C7) -/

def rowBlank : DRow := ⟨"lpa:x", "X", "ref-7", "Doc", "", "pdf",
  " ", "http://h/x.pdf", "200", "application/pdf", "2024", "plan-1"⟩

/-- Claim C7 (counterexample): the downloader does not use `final_url`
whenever it is non-empty — a whitespace-only `final_url` is non-empty
yet is stripped to empty and the landing URL is fetched instead, as the
transport-call log shows. -/
theorem download_c7_counterexample :
    rowBlank.final_url ≠ ""
  ∧ pick_url rowBlank = "http://h/x.pdf"
  ∧ (download_documents oAll tOk [rowBlank] []).calls = ["http://h/x.pdf"] := by
  decide

/-- Claim C7 (amended): the downloader uses the whitespace-stripped
`final_url` when that is non-empty and otherwise falls back to the
stripped `landing_url`; a row where both strip to empty is counted
skipped-no-url, hands no URL to the transport, adds nothing to the
failure log, touches no file, and never stops the loop. -/
theorem download_c7_amended (o : Opts) (t : DTransport) (s : DState) (r : DRow) :
    pick_url r =
      (if pyStrip r.final_url ≠ "" then pyStrip r.final_url else pyStrip r.landing_url)
  ∧ (pick_url r = "" →
        (processRow o t s r).1.stats.skipped_no_url = s.stats.skipped_no_url + 1
      ∧ (processRow o t s r).1.stats.total = s.stats.total + 1
      ∧ (processRow o t s r).1.calls = s.calls
      ∧ (processRow o t s r).1.failures = s.failures
      ∧ (processRow o t s r).1.fs = s.fs
      ∧ (processRow o t s r).2 = false) := by
  constructor
  · unfold pick_url
    by_cases h : pyStrip r.final_url = ""
    · rw [if_pos h, if_neg (not_not_intro h)]
    · rw [if_neg h, if_pos h]
  · intro h
    simp [processRow, if_pos h]

def rowNoUrl : DRow := ⟨"lpa:x", "X", "ref-0", "Doc", "", "landing",
  "", " ", "0", "", "2024", ""⟩

/-- Witness for the amended C7 theorem: a row whose URLs both strip to
empty. -/
theorem download_c7_witness :
    (processRow oAll tOk (initState []) rowNoUrl).1.stats.skipped_no_url =
        (initState []).stats.skipped_no_url + 1
  ∧ (processRow oAll tOk (initState []) rowNoUrl).1.stats.total =
        (initState []).stats.total + 1
  ∧ (processRow oAll tOk (initState []) rowNoUrl).1.calls = (initState []).calls
  ∧ (processRow oAll tOk (initState []) rowNoUrl).1.failures = (initState []).failures
  ∧ (processRow oAll tOk (initState []) rowNoUrl).1.fs = (initState []).fs
  ∧ (processRow oAll tOk (initState []) rowNoUrl).2 = false :=
  (download_c7_amended oAll tOk (initState []) rowNoUrl).2 (by decide)

/-! ### Early stop (claim C8) -/

/-- Claim C8 (counterexample): a configured maximum of zero does not
stop the run — Python treats `max_downloads=0` as falsy, like `None`,
so the single downloadable row is still visited and downloaded. -/
theorem download_c8_counterexample :
    (⟨some 0, true, none⟩ : Opts).max_downloads = some 0
  ∧ (download_documents ⟨some 0, true, none⟩ tOk [rowGood] []).stats.downloaded = 1
  ∧ (download_documents ⟨some 0, true, none⟩ tOk [rowGood] []).stats.total = 1 := by
  decide

theorem processRow_downloaded (o : Opts) (t : DTransport) (s : DState) (r : DRow)
    (n : Nat) (hmax : o.max_downloads = some n) (hn : 1 ≤ n)
    (hs : s.stats.downloaded < n) :
    (processRow o t s r).1.stats.downloaded ≤ n
  ∧ ((processRow o t s r).2 = true → (processRow o t s r).1.stats.downloaded = n)
  ∧ ((processRow o t s r).2 = false → (processRow o t s r).1.stats.downloaded < n) := by
  have hnt : natTruthy (some n) = true := by
    simp [natTruthy]; omega
  simp only [processRow, hmax, hnt, Option.getD_some, Bool.true_and]
  split_ifs <;>
    refine ⟨?_, ?_, ?_⟩ <;>
      simp [hnt, decide_eq_true_eq] <;> omega

theorem processRow_total (o : Opts) (t : DTransport) (s : DState) (r : DRow) :
    (processRow o t s r).1.stats.total = s.stats.total + 1 := by
  simp only [processRow]
  split_ifs <;> rfl

theorem goDl_c8 (o : Opts) (t : DTransport) (n : Nat)
    (hmax : o.max_downloads = some n) (hn : 1 ≤ n) :
    ∀ (rows : List DRow) (s : DState), s.stats.downloaded < n →
      (goDl o t rows s).stats.downloaded ≤ n
    ∧ ∃ k ≤ rows.length, goDl o t rows s = goDl o t (rows.take k) s
        ∧ (goDl o t rows s).stats.total = s.stats.total + k
        ∧ (∀ j < k, (goDl o t (rows.take j) s).stats.downloaded < n)
        ∧ (k < rows.length → (goDl o t rows s).stats.downloaded = n) := by
  intro rows
  induction rows with
  | nil =>
    intro s hs
    exact ⟨le_of_lt hs, 0, Nat.le_refl 0, rfl, rfl,
      fun j hj => absurd hj (by omega), fun h => absurd h (by simp)⟩
  | cons r rs ih =>
    intro s hs
    obtain ⟨hle, htrue, hfalse⟩ := processRow_downloaded o t s r n hmax hn hs
    by_cases hbrk : (processRow o t s r).2 = true
    · have hgo : goDl o t (r :: rs) s = (processRow o t s r).1 := by
        simp only [goDl, hbrk, if_true]
      refine ⟨by rw [hgo]; exact hle, 1, by simp, ?_, ?_, ?_, ?_⟩
      · rw [hgo, List.take_succ_cons, List.take_zero]
        simp only [goDl, hbrk, if_true]
      · rw [hgo]; exact processRow_total o t s r
      · intro j hj
        have hj0 : j = 0 := by omega
        subst hj0
        exact hs
      · intro _; rw [hgo]; exact htrue hbrk
    · have hb : (processRow o t s r).2 = false := eq_false_of_ne_true hbrk
      have hgo : goDl o t (r :: rs) s = goDl o t rs (processRow o t s r).1 := by
        simp only [goDl, hb, Bool.false_eq_true, if_false]
      obtain ⟨ihle, k, hk, heq, htot, hmin, himp⟩ := ih (processRow o t s r).1 (hfalse hb)
      refine ⟨by rw [hgo]; exact ihle, k + 1, by simp; omega, ?_, ?_, ?_, ?_⟩
      · rw [hgo, heq, List.take_succ_cons]
        simp only [goDl, hb, Bool.false_eq_true, if_false]
      · rw [hgo, htot, processRow_total o t s r]
        omega
      · intro j hj
        match j with
        | 0 => exact hs
        | Nat.succ i =>
          rw [List.take_succ_cons]
          have hred : goDl o t (r :: rs.take i) s = goDl o t (rs.take i) (processRow o t s r).1 := by
            simp only [goDl, hb, Bool.false_eq_true, if_false]
          rw [hred]
          exact hmin i (by omega)
      · intro hlt
        rw [hgo]
        exact himp (by simp at hlt; omega)

/-- Claim C8 (amended): for every positive configured maximum,
`download_documents` stops as soon as the count of successful downloads
reaches the maximum, and rows after the stopping point are not counted
in any outcome: the whole run equals the run over the first `k` rows for
some `k`, exactly those `k` rows are counted (the total equals `k`, and
by C9 every outcome counter comes out of that total), no shorter prefix
had already reached the maximum (so the loop stops at the first row
where the count reaches it), and stopping before the end of the catalog
happens only with the maximum reached. A zero maximum is treated as "no
limit", like `None` (see the counterexample). -/
theorem download_c8_amended (o : Opts) (t : DTransport) (rows : List DRow) (fs0 : FS)
    (n : Nat) (hmax : o.max_downloads = some n) (hn : 1 ≤ n) :
    (download_documents o t rows fs0).stats.downloaded ≤ n
  ∧ ∃ k ≤ rows.length,
      download_documents o t rows fs0 = download_documents o t (rows.take k) fs0
      ∧ (download_documents o t rows fs0).stats.total = k
      ∧ (∀ j < k, (download_documents o t (rows.take j) fs0).stats.downloaded < n)
      ∧ (k < rows.length → (download_documents o t rows fs0).stats.downloaded = n) := by
  have h0 : (initState fs0).stats.downloaded < n := by
    simp only [initState]; omega
  obtain ⟨hle, k, hk, heq, htot, hmin, himp⟩ := goDl_c8 o t n hmax hn rows (initState fs0) h0
  refine ⟨hle, k, hk, heq, ?_, hmin, himp⟩
  show (goDl o t rows (initState fs0)).stats.total = k
  rw [htot]
  simp [initState]

def oMax1 : Opts := ⟨some 1, true, none⟩

/-- Witness for the amended C8 theorem on a two-row catalog with
maximum 1 (the first row downloads, so the run stops there and the
second row is never counted). -/
theorem download_c8_witness :
    (download_documents oMax1 tOk [rowGood, rowBlank] []).stats.downloaded ≤ 1
  ∧ ∃ k ≤ ([rowGood, rowBlank] : List DRow).length,
      download_documents oMax1 tOk [rowGood, rowBlank] [] =
        download_documents oMax1 tOk ([rowGood, rowBlank].take k) []
      ∧ (download_documents oMax1 tOk [rowGood, rowBlank] []).stats.total = k
      ∧ (∀ j < k, (download_documents oMax1 tOk ([rowGood, rowBlank].take j) []).stats.downloaded < 1)
      ∧ (k < ([rowGood, rowBlank] : List DRow).length →
          (download_documents oMax1 tOk [rowGood, rowBlank] []).stats.downloaded = 1) :=
  download_c8_amended oMax1 tOk [rowGood, rowBlank] [] 1 rfl (by decide)

end AgentBridge
